import Mathlib

/-!
Shallow embedding of the streaming JSON completeness checker
(`src/crates/core/src/util/json_checker.rs`) together with proofs of the
specified properties.  Text is modelled as lists of characters; the
struct fields keep the Rust names.  The `Vec<char>` depth stack is
modelled as a `List Char` with push = cons and pop = tail, the same
LIFO discipline as `Vec::push` / `Vec::pop`.
-/

namespace BitFun

/-- Code point of the opening brace character. -/
def lbrace : Char := Char.ofNat 123

/-- Code point of the closing brace character. -/
def rbrace : Char := Char.ofNat 125

/-- Code point of the double quote character. -/
def dquote : Char := Char.ofNat 34

/-- Code point of the backslash character. -/
def bslash : Char := Char.ofNat 92

/-- Code point of the colon character. -/
def colon : Char := Char.ofNat 58

/-- Code point of the space character. -/
def spaceChar : Char := Char.ofNat 32

/-- State of the checker, mirroring the fields of `struct JsonChecker`. -/
structure JsonChecker where
  buffer : List Char
  stack : List Char
  in_string : Bool
  escape_next : Bool
  seen_left_brace : Bool
deriving Repr, DecidableEq

/-- The initial state built by `JsonChecker::new`. -/
def JsonChecker.new : JsonChecker :=
  { buffer := []
    stack := []
    in_string := false
    escape_next := false
    seen_left_brace := false }

/-- The `match ch` arm of the loop body of `JsonChecker::append`, applied
after the character has been recorded: pending escape wins; a backslash
inside a string arms the escape; a quote toggles the string flag; an
opening brace outside a string pushes; a closing brace outside a string
pops when the stack is non-empty; every other character changes nothing. -/
def classify (c : JsonChecker) (ch : Char) : JsonChecker :=
  if c.escape_next = true then { c with escape_next := false }
  else if ch = bslash ∧ c.in_string = true then { c with escape_next := true }
  else if ch = dquote then { c with in_string := !c.in_string }
  else if ch = lbrace ∧ c.in_string = false then { c with stack := lbrace :: c.stack }
  else if ch = rbrace ∧ c.in_string = false then
    if c.stack.isEmpty then c else { c with stack := c.stack.tail }
  else c

/-- One iteration of the character loop inside `JsonChecker::append`:
before the first opening brace every character other than the brace is
discarded; from the first brace on, the character is pushed onto the
buffer and then classified. -/
def step (c : JsonChecker) (ch : Char) : JsonChecker :=
  if c.seen_left_brace = false then
    if ch = lbrace then
      { c with seen_left_brace := true
               stack := lbrace :: c.stack
               buffer := c.buffer ++ [ch] }
    else c
  else classify { c with buffer := c.buffer ++ [ch] } ch

/-- `JsonChecker::append`: consume a fragment character by character. -/
def append (c : JsonChecker) (s : List Char) : JsonChecker :=
  s.foldl step c

/-- `JsonChecker::get_buffer`. -/
def get_buffer (c : JsonChecker) : List Char :=
  c.buffer

/-- `JsonChecker::is_valid`: the stack is empty and a left brace was seen. -/
def is_valid (c : JsonChecker) : Bool :=
  c.stack.isEmpty && c.seen_left_brace

/-- `JsonChecker::reset`: clear every field back to its initial value. -/
def reset (_ : JsonChecker) : JsonChecker :=
  { buffer := []
    stack := []
    in_string := false
    escape_next := false
    seen_left_brace := false }

/-- Feeding a whole sequence of fragments, one `append` call per fragment. -/
def appendList (c : JsonChecker) (ss : List (List Char)) : JsonChecker :=
  ss.foldl append c

/-- States reachable from a fresh checker by `append` and `reset` calls. -/
inductive Reachable : JsonChecker → Prop
  | new : Reachable JsonChecker.new
  | append (c : JsonChecker) (s : List Char) :
      Reachable c → Reachable (append c s)
  | reset (c : JsonChecker) : Reachable c → Reachable (reset c)

/-- The state right after the first opening brace has been consumed. -/
def braceState : JsonChecker :=
  { buffer := [lbrace]
    stack := [lbrace]
    in_string := false
    escape_next := false
    seen_left_brace := true }

/-- First fragment of the spec scenario on escapes, exactly as the spec
writes it: `{"a": "x` followed by a single backslash. -/
def frag51 : List Char :=
  [lbrace, dquote, 'a', dquote, colon, spaceChar, dquote, 'x', bslash]

/-- Second fragment of the spec scenario on escapes: backslash, quote,
`y`, quote, closing brace. -/
def frag52 : List Char :=
  [bslash, dquote, 'y', dquote, rbrace]

/-- Amended first fragment: `{"a": "x` followed by two backslashes, so
that the boundary falls between a complete escaped backslash and the
escaped quote that follows. -/
def frag51amended : List Char :=
  [lbrace, dquote, 'a', dquote, colon, spaceChar, dquote, 'x', bslash, bslash]

/-- First fragment of the spec scenario on braces inside strings,
exactly as the spec writes it: `{"code": "{ } {"`. -/
def frag61 : List Char :=
  [lbrace, dquote, 'c', 'o', 'd', 'e', dquote, colon, spaceChar, dquote,
   lbrace, spaceChar, rbrace, spaceChar, lbrace, dquote]

/-- Second fragment of the braces scenario: `}"`. -/
def frag62 : List Char :=
  [rbrace, dquote]

/-- Third fragment of the braces scenario: `}`. -/
def frag63 : List Char :=
  [rbrace]

/-- Amended first fragment of the braces scenario: `{"code": "{ } {`,
with the string still open at the fragment boundary. -/
def frag61amended : List Char :=
  [lbrace, dquote, 'c', 'o', 'd', 'e', dquote, colon, spaceChar, dquote,
   lbrace, spaceChar, rbrace, spaceChar, lbrace]

/-- A concrete state inside a string: the fresh checker after `{"`. -/
def ex4a : JsonChecker := append JsonChecker.new [lbrace, dquote]

/-- A concrete state with a pending escape: `ex4a` after one backslash. -/
def ex4b : JsonChecker := step ex4a bslash

/-- A concrete state with an empty stack outside a string: after `{}`. -/
def ex7 : JsonChecker := append JsonChecker.new [lbrace, rbrace]

/-- A concrete reachable state with a pending escape: after `{"` and a
backslash fed by `append`. -/
def ex9 : JsonChecker := append JsonChecker.new [lbrace, dquote, bslash]

lemma append_nil (c : JsonChecker) : append c [] = c := rfl

lemma append_cons (c : JsonChecker) (ch : Char) (s : List Char) :
    append c (ch :: s) = append (step c ch) s := rfl

lemma append_append (c : JsonChecker) (s t : List Char) :
    append c (s ++ t) = append (append c s) t := by
  simp [append, List.foldl_append]

lemma appendList_eq_flatten (c : JsonChecker) (ss : List (List Char)) :
    appendList c ss = append c ss.flatten := by
  induction ss generalizing c with
  | nil => rfl
  | cons s ss ih =>
      show appendList (append c s) ss = append c ((s :: ss).flatten)
      rw [ih, List.flatten_cons, append_append]

lemma classify_buffer (c : JsonChecker) (ch : Char) :
    (classify c ch).buffer = c.buffer ∧
      (classify c ch).seen_left_brace = c.seen_left_brace := by
  unfold classify
  split_ifs <;> simp

lemma step_of_seen (c : JsonChecker) (ch : Char) (h : c.seen_left_brace = true) :
    (step c ch).buffer = c.buffer ++ [ch] ∧ (step c ch).seen_left_brace = true := by
  unfold step
  rw [h]
  simp [classify_buffer, h]

lemma append_buffer_of_seen (c : JsonChecker) (s : List Char)
    (h : c.seen_left_brace = true) :
    (append c s).buffer = c.buffer ++ s ∧ (append c s).seen_left_brace = true := by
  induction s generalizing c with
  | nil => simp [append_nil, h]
  | cons ch s ih =>
      have hstep := step_of_seen c ch h
      have hrec := ih (step c ch) hstep.2
      rw [append_cons]
      refine ⟨?_, hrec.2⟩
      rw [hrec.1, hstep.1]
      simp

lemma step_new_of_ne (c : JsonChecker) (ch : Char) (hseen : c.seen_left_brace = false)
    (h : ch ≠ lbrace) : step c ch = c := by
  unfold step
  rw [hseen]
  simp [h]

lemma step_new_brace : step JsonChecker.new lbrace = braceState := rfl

lemma buffer_append_new (s : List Char) :
    (append JsonChecker.new s).buffer = s.dropWhile (fun ch => ch != lbrace) := by
  induction s with
  | nil => rfl
  | cons ch s ih =>
      by_cases h : ch = lbrace
      · subst h
        rw [append_cons, step_new_brace, (append_buffer_of_seen braceState s rfl).1]
        simp [braceState, List.dropWhile_cons]
      · rw [append_cons, step_new_of_ne JsonChecker.new ch rfl h, ih]
        simp [List.dropWhile_cons, h]

lemma append_new_no_brace (s : List Char) (h : lbrace ∉ s) :
    append JsonChecker.new s = JsonChecker.new := by
  induction s with
  | nil => rfl
  | cons ch s ih =>
      rw [append_cons,
        step_new_of_ne JsonChecker.new ch rfl (fun he => h (he ▸ List.mem_cons_self ch s))]
      exact ih (fun hm => h (List.mem_cons_of_mem ch hm))

lemma step_escape_consume (c : JsonChecker) (ch : Char) (hseen : c.seen_left_brace = true)
    (h : c.escape_next = true) :
    step c ch = { c with buffer := c.buffer ++ [ch], escape_next := false } := by
  unfold step classify
  rw [hseen]
  simp [h]

lemma step_backslash (c : JsonChecker) (hseen : c.seen_left_brace = true)
    (hin : c.in_string = true) (hesc : c.escape_next = false) :
    (step c bslash).escape_next = true := by
  unfold step classify
  rw [hseen]
  simp [hesc, hin]

lemma step_rbrace_empty (c : JsonChecker) (hseen : c.seen_left_brace = true)
    (hin : c.in_string = false) (hesc : c.escape_next = false) (hstk : c.stack = []) :
    step c rbrace = { c with buffer := c.buffer ++ [rbrace] } := by
  unfold step classify
  rw [hseen]
  simp [hesc, hin, hstk, show ¬(rbrace = bslash) from by decide,
    show ¬(rbrace = dquote) from by decide, show ¬(rbrace = lbrace) from by decide]

lemma classify_esc_imp (c : JsonChecker) (ch : Char)
    (h : c.escape_next = true → c.in_string = true) :
    (classify c ch).escape_next = true → (classify c ch).in_string = true := by
  unfold classify
  split_ifs <;> simp_all

lemma step_esc_imp (c : JsonChecker) (ch : Char)
    (h : c.escape_next = true → c.in_string = true) :
    (step c ch).escape_next = true → (step c ch).in_string = true := by
  unfold step
  split_ifs with h1 h2
  · simpa using h
  · exact h
  · exact classify_esc_imp { c with buffer := c.buffer ++ [ch] } ch h

lemma append_esc_imp (c : JsonChecker) (s : List Char)
    (h : c.escape_next = true → c.in_string = true) :
    (append c s).escape_next = true → (append c s).in_string = true := by
  induction s generalizing c with
  | nil => exact h
  | cons ch s ih => exact ih (step c ch) (step_esc_imp c ch h)

lemma reachable_esc_imp (c : JsonChecker) (h : Reachable c) :
    c.escape_next = true → c.in_string = true := by
  induction h with
  | new => simp [JsonChecker.new]
  | append c s _ ih => exact append_esc_imp c s ih
  | reset c _ => simp [reset]

/-- Claim C1: appending the fragments of any decomposition of `s` one by
one to a fresh checker reaches exactly the same state as appending `s`
in a single call, so `is_valid` and `get_buffer` agree as well; in
particular every internal flag survives a split at any character
position, including between a backslash and the character it escapes. -/
theorem claim_fragment_split_invariance (s : List Char) (ss : List (List Char))
    (h : ss.flatten = s) :
    appendList JsonChecker.new ss = append JsonChecker.new s ∧
    is_valid (appendList JsonChecker.new ss) = is_valid (append JsonChecker.new s) ∧
    get_buffer (appendList JsonChecker.new ss) = get_buffer (append JsonChecker.new s) := by
  subst h
  refine ⟨appendList_eq_flatten _ _, ?_, ?_⟩ <;> rw [appendList_eq_flatten]

/-- Witness for C1 at the decomposition of `{}` into two fragments. -/
theorem claim_fragment_split_invariance_witness :
    ([[lbrace], [rbrace]] : List (List Char)).flatten = [lbrace, rbrace] ∧
    appendList JsonChecker.new [[lbrace], [rbrace]] =
      append JsonChecker.new [lbrace, rbrace] :=
  ⟨rfl, (claim_fragment_split_invariance [lbrace, rbrace] [[lbrace], [rbrace]] rfl).1⟩

/-- Claim C2: `is_valid` is true exactly when a brace has been seen and
the depth (stack length) is zero, and the signal is not latching: after
the complete object `{}` it is true, and appending one more unmatched
opening brace makes it false again. -/
theorem claim_is_valid_iff :
    (∀ c : JsonChecker,
      is_valid c = true ↔ (c.seen_left_brace = true ∧ c.stack.length = 0)) ∧
    (is_valid (append JsonChecker.new [lbrace, rbrace]) = true ∧
     is_valid (append (append JsonChecker.new [lbrace, rbrace]) [lbrace]) = false) := by
  refine ⟨fun c => ?_, by decide, by decide⟩
  simp [is_valid, List.isEmpty_iff, List.length_eq_zero, and_comm]

/-- Witness for C2 at the fresh state. -/
theorem claim_is_valid_iff_witness :
    is_valid JsonChecker.new = true ↔
      (JsonChecker.new.seen_left_brace = true ∧ JsonChecker.new.stack.length = 0) :=
  claim_is_valid_iff.1 JsonChecker.new

/-- Claim C3: after any sequence of appends to a fresh checker the
buffer is exactly the concatenated input from the first opening brace
(inclusive) onward, with nothing dropped, inserted, or reordered; and
when the input holds no opening brace at all, the buffer is empty and
`is_valid` is false. -/
theorem claim_buffer_contract (ss : List (List Char)) :
    get_buffer (appendList JsonChecker.new ss) =
      (ss.flatten).dropWhile (fun ch => ch != lbrace) ∧
    (lbrace ∉ ss.flatten →
      get_buffer (appendList JsonChecker.new ss) = [] ∧
      is_valid (appendList JsonChecker.new ss) = false) := by
  constructor
  · simp only [get_buffer]
    rw [appendList_eq_flatten]
    exact buffer_append_new ss.flatten
  · intro h
    rw [appendList_eq_flatten, append_new_no_brace ss.flatten h]
    exact ⟨rfl, rfl⟩

/-- Witness for C3 at a one-fragment input holding no opening brace. -/
theorem claim_buffer_contract_witness :
    lbrace ∉ ([['a']] : List (List Char)).flatten ∧
    get_buffer (appendList JsonChecker.new [['a']]) = [] ∧
    is_valid (appendList JsonChecker.new [['a']]) = false :=
  ⟨by decide, (claim_buffer_contract [['a']]).2 (by decide)⟩

/-- Claim C4: in any recording state, an unescaped backslash inside a
string arms the escape flag; and a pending escape is consumed by exactly
the one next character, whatever it is: that character only extends the
buffer and clears the flag, so an escaped quote does not toggle
`in_string` and an escaped backslash does not arm a further escape. -/
theorem claim_escape_semantics (c : JsonChecker) (ch : Char)
    (hseen : c.seen_left_brace = true) :
    ((ch = bslash ∧ c.in_string = true ∧ c.escape_next = false) →
      (step c ch).escape_next = true) ∧
    (c.escape_next = true →
      step c ch = { c with buffer := c.buffer ++ [ch], escape_next := false }) := by
  constructor
  · rintro ⟨rfl, hin, hesc⟩
    exact step_backslash c hseen hin hesc
  · intro h
    exact step_escape_consume c ch hseen h

/-- Witness for C4: arming the escape after `{"` and consuming it on a
quote, which therefore stays inside the string. -/
theorem claim_escape_semantics_witness :
    (ex4a.seen_left_brace = true ∧ (step ex4a bslash).escape_next = true) ∧
    (ex4b.escape_next = true ∧
      step ex4b dquote = { ex4b with buffer := ex4b.buffer ++ [dquote],
                                     escape_next := false }) :=
  ⟨⟨by decide, (claim_escape_semantics ex4a bslash (by decide)).1 (by decide)⟩,
   ⟨by decide, (claim_escape_semantics ex4b dquote (by decide)).2 (by decide)⟩⟩

/-- Claim C5 refuted: with the fragments exactly as the spec writes them
(`{"a": "x` plus one backslash, then backslash-quote-`y`-quote-brace)
the checker is NOT complete after the second append: the two backslashes
already form a complete escaped backslash, so the following quote closes
the string and the final quote reopens it, leaving the closing brace
inside a string. -/
theorem claim_scenario_escape_counterexample :
    ¬ (is_valid (append JsonChecker.new frag51) = false ∧
       is_valid (append (append JsonChecker.new frag51) frag52) = true) := by
  decide

/-- Claim C5 amended: with the first fragment ending in two backslashes
(`{"a": "x\\`), the split falls between the escaped backslash and the
escaped quote, and the checker reports false after the first append and
true after the second. -/
theorem claim_scenario_escape_amended :
    is_valid (append JsonChecker.new frag51amended) = false ∧
    is_valid (append (append JsonChecker.new frag51amended) frag52) = true := by
  decide

/-- Claim C6 refuted: with the fragments exactly as the spec writes them
the quote at the end of the first fragment already closes the string, so
the closing brace at the start of the second fragment balances the
object and `is_valid` is already true after the second append. -/
theorem claim_scenario_braces_counterexample :
    is_valid (append JsonChecker.new frag61) = false ∧
    is_valid (append (append JsonChecker.new frag61) frag62) = true := by
  decide

/-- Claim C6 amended: with the first fragment `{"code": "{ } {` leaving
the string open at the boundary, the braces inside the string are
ignored, the second fragment closes the string, and only the final
closing brace completes the object: false, false, then true. -/
theorem claim_scenario_braces_amended :
    is_valid (append JsonChecker.new frag61amended) = false ∧
    is_valid (append (append JsonChecker.new frag61amended) frag62) = false ∧
    is_valid (append (append (append JsonChecker.new frag61amended) frag62) frag63) = true := by
  decide

/-- Claim C7: the depth (stack length) never goes below zero for any
state and input, and a closing brace consumed outside a string in a
recording state with an empty stack is a no-op apart from extending the
buffer. -/
theorem claim_depth_nonneg_rbrace_noop :
    (∀ (c : JsonChecker) (s : List Char), 0 ≤ ((append c s).stack.length : Int)) ∧
    (∀ c : JsonChecker, c.seen_left_brace = true → c.in_string = false →
      c.escape_next = false → c.stack = [] →
      step c rbrace = { c with buffer := c.buffer ++ [rbrace] }) :=
  ⟨fun _ _ => Int.natCast_nonneg _,
   fun c h1 h2 h3 h4 => step_rbrace_empty c h1 h2 h3 h4⟩

/-- Witness for C7 at the state reached after `{}`. -/
theorem claim_depth_nonneg_rbrace_noop_witness :
    0 ≤ ((append JsonChecker.new [lbrace]).stack.length : Int) ∧
    ex7.seen_left_brace = true ∧ ex7.stack = [] ∧
    step ex7 rbrace = { ex7 with buffer := ex7.buffer ++ [rbrace] } :=
  ⟨claim_depth_nonneg_rbrace_noop.1 JsonChecker.new [lbrace], by decide, by decide,
   claim_depth_nonneg_rbrace_noop.2 ex7 (by decide) (by decide) (by decide) (by decide)⟩

/-- Claim C8: resetting any state and then appending any sequence of
fragments gives the same state, hence the same `is_valid` and the same
buffer, as the same appends on a freshly created checker; instantiating
the fragment list at every intermediate point of a stream gives the
equality after every single append. -/
theorem claim_reset_equivalence (c : JsonChecker) (ss : List (List Char)) :
    appendList (reset c) ss = appendList JsonChecker.new ss ∧
    is_valid (appendList (reset c) ss) = is_valid (appendList JsonChecker.new ss) ∧
    get_buffer (appendList (reset c) ss) = get_buffer (appendList JsonChecker.new ss) :=
  ⟨rfl, rfl, rfl⟩

/-- Claim C9: in every state reachable from a fresh checker by `append`
and `reset` calls, a pending escape implies being inside a string. -/
theorem claim_escape_implies_in_string (c : JsonChecker) (h : Reachable c)
    (he : c.escape_next = true) : c.in_string = true :=
  reachable_esc_imp c h he

/-- Witness for C9 at the reachable state after `{"` and a backslash. -/
theorem claim_escape_implies_in_string_witness :
    ex9.escape_next = true ∧ ex9.in_string = true :=
  ⟨by decide,
   claim_escape_implies_in_string ex9
     (Reachable.append JsonChecker.new [lbrace, dquote, bslash] Reachable.new)
     (by decide)⟩

/-- Claim C10: `is_valid` reads only the brace flag and the stack, never
`in_string` or `escape_next`; consequently after the input `{}"` it
returns true even though the scan position is inside an unterminated
string literal. -/
theorem claim_is_valid_ignores_string_state :
    (∀ (c : JsonChecker) (buf : List Char) (ins esc : Bool),
      is_valid { c with buffer := buf, in_string := ins, escape_next := esc } =
        is_valid c) ∧
    (is_valid (append JsonChecker.new [lbrace, rbrace, dquote]) = true ∧
     (append JsonChecker.new [lbrace, rbrace, dquote]).in_string = true) :=
  ⟨fun _ _ _ _ => rfl, by decide, by decide⟩

end BitFun
